import Mathlib

/-!
Verification development for the hybrid query-planning and local-execution
engine of the SC-AI-Analyst repository.

The embedding covers:
* the tabular data model (`CSVData`, rows as string-keyed records) from
  `src/types.ts`;
* the plan executor (`executePlan` in `src/services/planExecutor.ts`):
  sequential filters and the `count` / `mismatch_rate` / `missing_po_rate`
  calculations;
* the local intent matcher (`tryLocalAnalysis` in
  `src/services/localAnalysisService.ts`): a small backtracking regex engine
  faithful to the six JavaScript pattern literals, and the three handlers
  `handleUniqueCount`, `handleDistribution`, `handleContainmentPercentage`.

Numbers are modelled as rationals (ℚ); JavaScript `toFixed(2)` is modelled by
decimal rounding on ℚ.  The `hsl(...)` colour strings of the distribution
chart are modelled by their hue values (the only data in them); the textual
`hsl` wrapper is presentational.  ASCII case mapping models JavaScript
`toLowerCase` (all pattern keywords and claim inputs are ASCII or caseless
Chinese).  All definitions are executable and all functions are total, which
in particular reflects that the translated code paths throw no exceptions.
-/

namespace SCAI

/-! ## JavaScript string primitives -/

/-- ASCII lowercase of a character, as JavaScript `toLowerCase` acts on
ASCII: `A`..`Z` (codes 65..90) map 32 codepoints up, all else unchanged. -/
def asciiLower (c : Char) : Char :=
  if 65 ≤ c.toNat ∧ c.toNat ≤ 90 then Char.ofNat (c.toNat + 32) else c

/-- Whether a character is an ASCII uppercase letter `A`..`Z`. -/
def isUpperA (c : Char) : Bool :=
  decide (65 ≤ c.toNat) && decide (c.toNat ≤ 90)

/-- JavaScript `s.toLowerCase()` on ASCII input. -/
def jsToLower (s : String) : String :=
  String.mk (s.toList.map asciiLower)

/-- Drop whitespace from both ends of a character list. -/
def trimChars (l : List Char) : List Char :=
  ((l.dropWhile Char.isWhitespace).reverse.dropWhile Char.isWhitespace).reverse

/-- JavaScript `s.trim()` (ASCII whitespace). -/
def jsTrim (s : String) : String :=
  String.mk (trimChars s.toList)

/-- Whether a string contains an ASCII uppercase letter. -/
def hasUpperChar (s : String) : Bool :=
  s.toList.any isUpperA

/-- List-level prefix test with `==` on characters. -/
def isPrefixList : List Char → List Char → Bool
  | [], _ => true
  | _ :: _, [] => false
  | a :: as, b :: bs => a == b && isPrefixList as bs

/-- Whether the first list occurs as a contiguous segment of the second. -/
def subStr : List Char → List Char → Bool
  | n, [] => isPrefixList n []
  | n, c :: rest => isPrefixList n (c :: rest) || subStr n rest

/-- JavaScript `a.includes(b)`: substring containment test. -/
def jsIncludes (a b : String) : Bool :=
  subStr b.toList a.toList

/-- JavaScript `toFixed(2)` on a nonnegative rational: round to the nearest
hundredth (half away from zero) and print with exactly two decimals. -/
def toFixed2 (q : ℚ) : String :=
  let m : ℕ := (⌊q * 100 + 1/2⌋).toNat
  let ip := m / 100
  let fp := m % 100
  toString ip ++ "." ++ (if fp < 10 then "0" ++ toString fp else toString fp)

/-- JavaScript `%` (fmod) on nonnegative rationals. -/
def jsMod (a b : ℚ) : ℚ :=
  a - b * ((⌊a / b⌋ : ℤ) : ℚ)

/-! ## Data model (`src/types.ts`)

A row is a `Record<string, string>`: modelled as an association list with
unique keys (Papa.parse builds one binding per header); lookup takes the
first binding. -/

/-- A CSV row: mapping from column name to textual cell value. -/
abbrev Row := List (String × String)

/-- JavaScript property read `row[k]`: `some` value if the key is present,
`none` (undefined) otherwise. -/
def lookupCell (r : Row) (k : String) : Option String :=
  match r.find? (fun p => p.1 == k) with
  | some p => some p.2
  | none => none

/-- JavaScript `(row[k] || '')`: missing cells and the empty string both
give the empty string. -/
def getCell (r : Row) (k : String) : String :=
  (lookupCell r k).getD ""

/-- JavaScript `(row[k] || d)` for a non-empty default `d`: missing cells
and empty strings are replaced by the default. -/
def jsOrDefault : Option String → String → String
  | some s, d => if s == "" then d else s
  | none, d => d

/-- Parsed CSV file: ordered headers and ordered rows (`CSVData`). -/
structure CSVData where
  headers : List String
  rows : List Row
deriving DecidableEq, Repr

/-- Cell of an output table: `(string | number)[][]` in `TableData`. -/
inductive Cell where
  | str (s : String)
  | num (q : ℚ)
deriving DecidableEq, Repr

/-- Output `CardData` block payload. -/
structure CardData where
  title : String
  value : String
  description : String
deriving DecidableEq, Repr

/-- Output `TableData` block payload. -/
structure TableDataM where
  headers : List String
  rows : List (List Cell)
deriving DecidableEq, Repr

/-- Output `ChartData` block payload; `backgroundColorHues` holds the hue
value of each generated `hsl(hue, 55%, 55%)` colour string. -/
structure ChartDataM where
  type : String
  labels : List String
  datasetLabel : String
  data : List ℚ
  backgroundColorHues : List ℚ
deriving DecidableEq, Repr

/-- One renderable response block (`AIResponseBlock`). -/
inductive AIResponseBlock where
  | card (d : CardData)
  | table (d : TableDataM)
  | chart (d : ChartDataM)
  | markdown (s : String)
deriving DecidableEq, Repr

/-! ## Plan executor (`src/services/planExecutor.ts`)

The `Filter.operator` and calculation names are strings at runtime (the plan
comes from an external planner), so they are modelled as `String`; the
executor switches on them.  A numeric `Filter.value` is not modelled: every
claim uses string (or absent) values, and `String(number)` rendering is
JavaScript float formatting outside this model's scope. -/

/-- One plan filter (`Filter` in `src/types.ts`). -/
structure Filter where
  column : String
  operator : String
  value : Option String
deriving DecidableEq, Repr

/-- Execution plan (`ExecutionPlan` in `src/types.ts`). -/
structure ExecutionPlan where
  action : String
  filters : Option (List Filter)
  calculations : Option (List String)
  data_subset_columns : Option (List String)
deriving DecidableEq, Repr

/-- JavaScript `String(filter.value) || ''` for a string-or-absent value:
`String(undefined)` is the (truthy) text `"undefined"`. -/
def jsStringOr : Option String → String
  | some s => s
  | none => "undefined"

/-- The per-row filter predicate of `executePlan`: lowercased cell against
lowercased filter value, switching on the operator string, defaulting to
`true` (fail-open) for unrecognized operators. -/
def filterPred (f : Filter) (r : Row) : Bool :=
  let cellValue := jsToLower (getCell r f.column)
  let filterValue := jsToLower (jsStringOr f.value)
  match f.operator with
  | "equals" => cellValue == filterValue
  | "not_equals" => cellValue != filterValue
  | "contains" => jsIncludes cellValue filterValue
  | "is_empty" => cellValue == ""
  | "is_not_empty" => cellValue != ""
  | _ => true

/-- One pass of `filteredRows.filter(...)` for a single plan filter. -/
def applyFilter (f : Filter) (rows : List Row) : List Row :=
  rows.filter (filterPred f)

/-- The filtering phase of `executePlan`: each filter applied sequentially. -/
def executeFilters (plan : ExecutionPlan) (d : CSVData) : List Row :=
  match plan.filters with
  | none => d.rows
  | some fs => fs.foldl (fun rows f => applyFilter f rows) d.rows

/-- Predicate of the `mismatch_rate` numerator:
`r.tracking_no !== r.vend_track_no && r.vend_track_no` (vendor field
present and non-empty, and differing from the scanned field). -/
def mismatchRow (r : Row) : Bool :=
  !(lookupCell r "tracking_no" == lookupCell r "vend_track_no")
    && !(lookupCell r "vend_track_no" == none)
    && !(lookupCell r "vend_track_no" == some "")

/-- Number of mismatch rows among the filtered rows. -/
def mismatchCount (rows : List Row) : ℕ :=
  (rows.filter mismatchRow).length

/-- Predicate of the `missing_po_rate` numerator: `!r.return_po`. -/
def missingPoRow (r : Row) : Bool :=
  lookupCell r "return_po" == none || lookupCell r "return_po" == some ""

/-- Number of rows with a missing/empty `return_po` among the filtered rows. -/
def missingPoCount (rows : List Row) : ℕ :=
  (rows.filter missingPoRow).length

/-- Functional update of the metrics record `metrics[k] = v`. -/
def mUpdate (m : String → Option ℚ) (k : String) (v : ℚ) : String → Option ℚ :=
  fun x => if x = k then some v else m x

/-- One iteration of the calculation loop of `executePlan`: with zero
filtered rows the requested calculation is set to `0`; otherwise the switch
on the calculation name writes the metric (unknown names write nothing). -/
def metricStep (rows : List Row) (m : String → Option ℚ) (c : String) : String → Option ℚ :=
  if rows.length = 0 then mUpdate m c 0
  else
    match c with
    | "count" => mUpdate m "count" (rows.length : ℚ)
    | "mismatch_rate" =>
        mUpdate m "mismatch_rate" (((mismatchCount rows : ℚ) / (rows.length : ℚ)) * 100)
    | "missing_po_rate" =>
        mUpdate m "missing_po_rate" (((missingPoCount rows : ℚ) / (rows.length : ℚ)) * 100)
    | _ => m

/-- The calculation phase of `executePlan`: fold over the requested
calculations, writing each metric into the (initially empty) record. -/
def computeMetrics (calcs : List String) (rows : List Row) : String → Option ℚ :=
  calcs.foldl (metricStep rows) (fun _ => none)

/-- Result of `executePlan`: computed metrics and the filtered subset. -/
structure ExecutionResult where
  metrics : String → Option ℚ
  subset : CSVData

/-- `executePlan` from `src/services/planExecutor.ts`: apply the filters
sequentially, run the calculations on the filtered rows, and return the
metrics together with the narrowed dataset (headers kept unchanged). -/
def executePlan (plan : ExecutionPlan) (d : CSVData) : ExecutionResult :=
  let filteredRows := executeFilters plan d
  { metrics :=
      match plan.calculations with
      | none => fun _ => none
      | some calcs => computeMetrics calcs filteredRows
    subset := { headers := d.headers, rows := filteredRows } }

/-! ## Local analysis handlers (`src/services/localAnalysisService.ts`) -/

/-- Whether a character is removed by the handlers' column-name sanitizer
(the single quote, double quote and backquote characters). -/
def isQuoteChar (c : Char) : Bool :=
  c.toNat == 39 || c.toNat == 34 || c.toNat == 96

/-- Column-name sanitizer: remove every quote-class character (codes 39,
34, 96) from the column name, then trim, as in the handlers' first line. -/
def cleanCol (s : String) : String :=
  jsTrim (String.mk (s.toList.filter (fun c => !isQuoteChar c)))

/-- Error message of the single-column handlers for a missing column. -/
def columnNotFoundMsg (c : String) : String :=
  "Error: Column \x27" ++ c ++ "\x27 not found in the data."

/-- Error message of the containment handler for missing columns. -/
def columnsNotFoundMsg (missing : List String) : String :=
  "Error: Column(s) \x27" ++ String.intercalate ", " missing ++ "\x27 not found."

/-- Handler `handleUniqueCount`: card with the number of distinct cell
values in the column that are present and non-empty; markdown error block
when the (sanitized) column is not a header. -/
def handleUniqueCount (column : String) (data : CSVData) : List AIResponseBlock :=
  let cleanColumn := cleanCol column
  if cleanColumn ∉ data.headers then
    [.markdown (columnNotFoundMsg cleanColumn)]
  else
    let uniqueValues :=
      (((data.rows.map (fun r => lookupCell r cleanColumn)).filter
        (fun v => !(v == none) && !(v == some ""))).dedup)
    let count := uniqueValues.length
    [.card
      { title := "Unique \"" ++ cleanColumn ++ "\" Count"
        value := toString count
        description := "There are " ++ toString count ++
          " distinct non-empty values in the \x27" ++ cleanColumn ++ "\x27 column." }]

/-- Value counting of `handleDistribution`: bump the count of a value in an
insertion-ordered association list (JavaScript object key order for
non-numeric string keys). -/
def bumpCount : List (String × ℕ) → String → List (String × ℕ)
  | [], v => [(v, 1)]
  | (k, n) :: rest, v =>
    if k == v then (k, n + 1) :: rest else (k, n) :: bumpCount rest v

/-- Frequency table of a column over the rows, in first-occurrence order;
missing and empty cells count under the `N/A` key (`row[column] || 'N/A'`). -/
def countValues (c : String) (rows : List Row) : List (String × ℕ) :=
  rows.foldl (fun acc r => bumpCount acc (jsOrDefault (lookupCell r c) "N/A")) []

/-- Stable descending insertion by count: an earlier entry stays before
later entries of equal count (ES2019+ `Array.prototype.sort` is stable). -/
def insertDesc (x : String × ℕ) : List (String × ℕ) → List (String × ℕ)
  | [] => [x]
  | y :: ys => if x.2 ≥ y.2 then x :: y :: ys else y :: insertDesc x ys

/-- Stable sort by count, descending (`sort(([, a], [, b]) => b - a)`). -/
def sortDescByCount : List (String × ℕ) → List (String × ℕ)
  | [] => []
  | x :: xs => insertDesc x (sortDescByCount xs)

/-- Handler `handleDistribution`: markdown + chart + table with per-value
counts sorted descending, percentages over all rows to two decimals, pie
chart for at most five distinct values and bar chart otherwise; markdown
error block when the (sanitized) column is not a header. -/
def handleDistribution (column : String) (data : CSVData) : List AIResponseBlock :=
  let cleanColumn := cleanCol column
  if cleanColumn ∉ data.headers then
    [.markdown (columnNotFoundMsg cleanColumn)]
  else
    let sortedCounts := sortDescByCount (countValues cleanColumn data.rows)
    let tableData : TableDataM :=
      { headers := [cleanColumn, "Count", "Percentage"]
        rows := sortedCounts.map (fun p =>
          [Cell.str p.1, Cell.num (p.2 : ℚ),
           Cell.str (toFixed2 (((p.2 : ℚ) / (data.rows.length : ℚ)) * 100) ++ "%")]) }
    let bgHues := (List.range sortedCounts.length).map
      (fun (i : ℕ) => jsMod (((i : ℚ) * 360) / ((min sortedCounts.length 20 : ℕ) : ℚ)) 360)
    let chartData : ChartDataM :=
      { type := if sortedCounts.length > 5 then "bar" else "pie"
        labels := sortedCounts.map (fun p => p.1)
        datasetLabel := "Distribution of " ++ cleanColumn
        data := sortedCounts.map (fun p => (p.2 : ℚ))
        backgroundColorHues := bgHues }
    [.markdown ("Here is the distribution for the **" ++ cleanColumn ++ "** column."),
     .chart chartData,
     .table tableData]

/-- Handler `handleContainmentPercentage`: card with the percentage of rows
whose two cells are both non-empty and where the first contains the second
as a substring; markdown error block naming the missing column(s) when
either (sanitized) column is not a header; `0%` card on an empty dataset. -/
def handleContainmentPercentage (col1 col2 : String) (data : CSVData) :
    List AIResponseBlock :=
  let cleanCol1 := cleanCol col1
  let cleanCol2 := cleanCol col2
  if cleanCol1 ∉ data.headers ∨ cleanCol2 ∉ data.headers then
    let missing :=
      (if cleanCol1 ∉ data.headers then [cleanCol1] else []) ++
      (if cleanCol2 ∉ data.headers then [cleanCol2] else [])
    [.markdown (columnsNotFoundMsg missing)]
  else
    let totalRows := data.rows.length
    if totalRows = 0 then
      [.card { title := "Containment Percentage", value := "0%"
               description := "No data to analyze." }]
    else
      let containedCount := (data.rows.filter (fun r =>
        let val1 := getCell r cleanCol1
        let val2 := getCell r cleanCol2
        !(val1 == "") && !(val2 == "") && jsIncludes val1 val2)).length
      let percentage := ((containedCount : ℚ) / (totalRows : ℚ)) * 100
      [.card
        { title := "\"" ++ cleanCol1 ++ "\" containing \"" ++ cleanCol2 ++ "\""
          value := toFixed2 percentage ++ "%"
          description := toString containedCount ++ " of " ++ toString totalRows ++
            " rows showed that the \x27" ++ cleanCol1 ++
            "\x27 value contained the \x27" ++ cleanCol2 ++ "\x27 value." }]

/-! ## Regex engine for the six pattern literals

The six regular expressions in `PATTERNS` use only: literal text,
non-capturing ordered alternation, an optional quote-character class, and
capture groups of one-or-more word characters.  The engine below implements
exactly these constructs with JavaScript semantics: unanchored leftmost
search, ordered alternation, greedy quantifiers with backtracking, and the
`i` flag via case-insensitive literal comparison.  No pattern nests capture
groups, so captures are appended in left-to-right (JavaScript group-number)
order. -/

/-- Character class of the pattern alphabet: the optional quote class
`['"]` and the word class `[\w_]` (letters, digits, underscore). -/
inductive CharClass where
  | quote
  | word
deriving DecidableEq, Repr

/-- Membership test of a character class. -/
def CharClass.test : CharClass → Char → Bool
  | .quote, c => c.toNat == 39 || c.toNat == 34
  | .word, c =>
    (48 ≤ c.toNat && c.toNat ≤ 57) || (65 ≤ c.toNat && c.toNat ≤ 90) ||
    (97 ≤ c.toNat && c.toNat ≤ 122) || c == '_'

/-- Regular expressions over the constructs used by `PATTERNS`. -/
inductive Rx where
  | eps
  | lit (l : List Char)
  | cls (t : CharClass)
  | seq (a b : Rx)
  | alt (a b : Rx)
  | opt (a : Rx)
  | plus (t : CharClass)
  | grp (a : Rx)
deriving DecidableEq, Repr

/-- Continuation type of the matcher: remaining input and captures so far. -/
abbrev MatchK := List Char → List String → Option (List String)

/-- Case-insensitive literal match (the `i` flag): consume the literal from
the front of the input and return the rest. -/
def litRest : List Char → List Char → Option (List Char)
  | [], s => some s
  | _ :: _, [] => none
  | c :: cs, d :: ds =>
    if asciiLower c == asciiLower d then litRest cs ds else none

/-- Greedy continuation of `+` after its first character: consume as many
further class characters as possible, backtracking one at a time. -/
def plusRest (t : CharClass) : List Char → List String → MatchK → Option (List String)
  | [], caps, k => k [] caps
  | c :: rest, caps, k =>
    if t.test c then
      (plusRest t rest caps k).orElse (fun _ => k (c :: rest) caps)
    else k (c :: rest) caps

/-- Backtracking matcher in continuation-passing style: JavaScript
semantics (ordered alternation, greedy `?` and `+`).  A capture group
records the consumed segment of the input. -/
def Rx.runM : Rx → List Char → List String → MatchK → Option (List String)
  | .eps, s, caps, k => k s caps
  | .lit l, s, caps, k =>
    match litRest l s with
    | some rest => k rest caps
    | none => none
  | .cls t, s, caps, k =>
    match s with
    | [] => none
    | c :: rest => if t.test c then k rest caps else none
  | .seq a b, s, caps, k => a.runM s caps (fun s2 caps2 => b.runM s2 caps2 k)
  | .alt a b, s, caps, k =>
    (a.runM s caps k).orElse (fun _ => b.runM s caps k)
  | .opt a, s, caps, k =>
    (a.runM s caps k).orElse (fun _ => k s caps)
  | .plus t, s, caps, k =>
    match s with
    | [] => none
    | c :: rest => if t.test c then plusRest t rest caps k else none
  | .grp a, s, caps, k =>
    a.runM s caps
      (fun s2 caps2 => k s2 (caps2 ++ [String.mk (s.take (s.length - s2.length))]))

/-- Unanchored leftmost search (JavaScript `String.prototype.match` without
the `g` flag): try every start position from the left. -/
def searchRx (r : Rx) : List Char → Option (List String)
  | [] => r.runM [] [] (fun _ caps => some caps)
  | c :: rest =>
    (r.runM (c :: rest) [] (fun _ caps => some caps)).orElse
      (fun _ => searchRx r rest)

/-- Match a regex against a string, returning the captures on success. -/
def rxMatch (r : Rx) (s : String) : Option (List String) :=
  searchRx r s.toList

/-- Literal regex from a string. -/
def rstr (s : String) : Rx :=
  .lit s.toList

/-- Sequence of a list of regexes. -/
def seqList (l : List Rx) : Rx :=
  l.foldr Rx.seq .eps

/-- The optional quote `['"]?` surrounding column names. -/
def optQuote : Rx :=
  .opt (.cls .quote)

/-- The capture group `([\w_]+)` used for every column-name argument. -/
def wordGroup : Rx :=
  .grp (.plus .word)

/-- First containment pattern: percentage of A that contains / containing B
(English verb phrase or Chinese connective). -/
def pattern1 : Rx :=
  seqList
    [.alt (rstr "what is") (.alt (rstr "calculate") (rstr "find")),
     rstr " ", .opt (rstr "the "), rstr "percentage of ",
     optQuote, wordGroup, optQuote, rstr " ",
     .alt (rstr "that contains") (.alt (rstr "containing") (rstr "里有多少比例包含了")),
     rstr " ", optQuote, wordGroup, optQuote]

/-- Second containment pattern: A containing/contains B followed by a
percentage/比例 keyword. -/
def pattern2 : Rx :=
  seqList
    [optQuote, wordGroup, optQuote, rstr " ",
     .alt (rstr "里有多少比例包含了") (.alt (rstr "containing") (rstr "contains")),
     rstr " ", optQuote, wordGroup, optQuote, rstr " ",
     .alt (rstr "的比例") (rstr "percentage")]

/-- First unique-count pattern: count/number of/统计 unique/distinct X. -/
def pattern3 : Rx :=
  seqList
    [.alt (rstr "count") (.alt (rstr "number of") (rstr "统计")),
     rstr " ", .alt (rstr "unique") (rstr "distinct"),
     rstr " ", optQuote, wordGroup, optQuote]

/-- Second unique-count pattern: unique/distinct X of/的数量/数量. -/
def pattern4 : Rx :=
  seqList
    [.alt (rstr "unique") (rstr "distinct"),
     rstr " ", optQuote, wordGroup, optQuote, rstr " ",
     .alt (rstr "of") (.alt (rstr "的数量") (rstr "数量"))]

/-- First distribution pattern: show/get/... the distribution/breakdown/
summary/分布 of X. -/
def pattern5 : Rx :=
  seqList
    [.alt (rstr "show")
       (.alt (rstr "get")
         (.alt (rstr "calculate")
           (.alt (rstr "find") (.alt (rstr "create") (rstr "generate"))))),
     rstr " ", .opt (rstr "the "),
     .alt (rstr "distribution of")
       (.alt (rstr "breakdown of") (.alt (rstr "summary of") (rstr "分布"))),
     rstr " ", optQuote, wordGroup, optQuote]

/-- Second distribution pattern: X 的分布/distribution. -/
def pattern6 : Rx :=
  seqList
    [optQuote, wordGroup, optQuote, rstr " ",
     .alt (rstr "的分布") (rstr "distribution")]

/-- Tag naming which handler a pattern dispatches to. -/
inductive HandlerTag where
  | containmentPercentage
  | uniqueCount
  | distribution
deriving DecidableEq, Repr

/-- One recognizer: a regex paired with its handler. -/
structure Pattern where
  regex : Rx
  handler : HandlerTag
deriving DecidableEq, Repr

/-- The ordered recognizer list `PATTERNS`: the two compound containment
patterns first, then the two unique-count patterns, then the two
distribution patterns. -/
def PATTERNS : List Pattern :=
  [⟨pattern1, .containmentPercentage⟩,
   ⟨pattern2, .containmentPercentage⟩,
   ⟨pattern3, .uniqueCount⟩,
   ⟨pattern4, .uniqueCount⟩,
   ⟨pattern5, .distribution⟩,
   ⟨pattern6, .distribution⟩]

/-- Dispatch `pattern.handler(...args, data)`: every pattern captures
exactly the arity its handler expects, so the catch-all is unreachable. -/
def applyHandler : HandlerTag → List String → CSVData → List AIResponseBlock
  | .uniqueCount, [c], d => handleUniqueCount c d
  | .distribution, [c], d => handleDistribution c d
  | .containmentPercentage, [c1, c2], d => handleContainmentPercentage c1 c2 d
  | _, _, _ => []

/-- Lowercased and trimmed question (`prompt.toLowerCase().trim()`). -/
def cleanPrompt (prompt : String) : String :=
  jsTrim (jsToLower prompt)

/-- Scan of the recognizer list: dispatch on the first matching pattern. -/
def tryPatterns (cp : String) (d : CSVData) : List Pattern → Option (List AIResponseBlock)
  | [] => none
  | p :: ps =>
    match rxMatch p.regex cp with
    | some args => some (applyHandler p.handler args d)
    | none => tryPatterns cp d ps

/-- `tryLocalAnalysis` from `src/services/localAnalysisService.ts`: clean
the question, scan the recognizers in order, and either return the selected
handler's blocks or signal no-match with `none`. -/
def tryLocalAnalysis (prompt : String) (d : CSVData) : Option (List AIResponseBlock) :=
  tryPatterns (cleanPrompt prompt) d PATTERNS

/-! ## Concrete datasets and plans used by the claims' scenarios -/

/-- Three-row tracking dataset of the mismatch-rate scenario. -/
def mismatchData : CSVData :=
  ⟨["tracking_no", "vend_track_no"],
   [[("tracking_no", "A"), ("vend_track_no", "A")],
    [("tracking_no", "B"), ("vend_track_no", "C")],
    [("tracking_no", "D"), ("vend_track_no", "")]]⟩

/-- Plan requesting only the mismatch rate over the whole dataset. -/
def mismatchPlan : ExecutionPlan :=
  ⟨"direct_analysis", none, some ["mismatch_rate"], none⟩

/-- Three-row carrier dataset of the distribution scenario. -/
def carrierData : CSVData :=
  ⟨["carrier"], [[("carrier", "UPS")], [("carrier", "UPS")], [("carrier", "FEDEX")]]⟩

/-- One-row dataset whose only cell is a single space (whitespace-only). -/
def whitespaceData : CSVData :=
  ⟨["c"], [[("c", " ")]]⟩

/-- Dataset holding both a capitalized header and its lowercase twin. -/
def twinHeaderData : CSVData :=
  ⟨["Carrier", "carrier"], [[("Carrier", "X"), ("carrier", "Y")]]⟩

/-- Dataset whose only header is capitalized, with no lowercase twin. -/
def upperHeaderData : CSVData :=
  ⟨["Carrier"], [[("Carrier", "X")]]⟩

/-- Well-formedness of a dataset: every key bound in a row is a header
(rows are built by the CSV parser with exactly the header keys). -/
def WfRows (d : CSVData) : Prop :=
  ∀ r ∈ d.rows, ∀ p ∈ r, p.1 ∈ d.headers

/-! ## Helper lemmas -/

/-- Lowercasing never produces an ASCII uppercase letter. -/
theorem isUpperA_asciiLower (c : Char) : isUpperA (asciiLower c) = false := by
  unfold asciiLower
  by_cases h : 65 ≤ c.toNat ∧ c.toNat ≤ 90
  · rw [if_pos h]
    obtain ⟨h1, h2⟩ := h
    revert h1 h2
    generalize c.toNat = n
    intro h1 h2
    interval_cases n <;> decide
  · rw [if_neg h]
    unfold isUpperA
    rw [not_and_or] at h
    rcases h with h | h <;> simp [decide_eq_false h]

/-- Lowercasing a string concerns only the character list. -/
theorem toList_jsToLower (s : String) :
    (jsToLower s).toList = s.toList.map asciiLower := rfl

/-- Trimming only removes characters. -/
theorem trimChars_subset (l : List Char) : ∀ c ∈ trimChars l, c ∈ l := by
  intro c hc
  unfold trimChars at hc
  rw [List.mem_reverse] at hc
  have h1 := (List.dropWhile_sublist (l := (l.dropWhile Char.isWhitespace).reverse)
    (p := Char.isWhitespace)).subset hc
  rw [List.mem_reverse] at h1
  exact (List.dropWhile_sublist (l := l) (p := Char.isWhitespace)).subset h1

/-- Every character of the cleaned question is lowercase (not `A`..`Z`). -/
theorem cleanPrompt_no_upper (p : String) :
    ∀ c ∈ (cleanPrompt p).toList, isUpperA c = false := by
  intro c hc
  have h1 : c ∈ (jsToLower p).toList := trimChars_subset _ c hc
  rw [toList_jsToLower, List.mem_map] at h1
  obtain ⟨d, _, hd⟩ := h1
  rw [← hd]
  exact isUpperA_asciiLower d

/-- A string is empty exactly when its lowercasing is. -/
theorem jsToLower_beq_empty (s : String) : (jsToLower s == "") = (s == "") := by
  obtain ⟨l⟩ := s
  cases l with
  | nil => rfl
  | cons c cs =>
    have h1 : jsToLower (String.mk (c :: cs)) ≠ "" := by
      intro h
      exact List.noConfusion (congrArg String.data h)
    have h2 : String.mk (c :: cs) ≠ ("" : String) := by
      intro h
      exact List.noConfusion (congrArg String.data h)
    rw [beq_eq_false_iff_ne.mpr h1, beq_eq_false_iff_ne.mpr h2]

/-- Evaluation scheme for `toFixed2` once the rounding floor is known. -/
theorem toFixed2_eval (q : ℚ) (n : ℤ) (h : ⌊q * 100 + 1/2⌋ = n) :
    toFixed2 q =
      toString (n.toNat / 100) ++ "." ++
        (if n.toNat % 100 < 10 then "0" ++ toString (n.toNat % 100)
         else toString (n.toNat % 100)) := by
  unfold toFixed2
  rw [h]

/-- The JavaScript modulo is the identity below the modulus. -/
theorem jsMod_of_lt (a b : ℚ) (h0 : 0 ≤ a) (hb : 0 < b) (hlt : a < b) :
    jsMod a b = a := by
  unfold jsMod
  have hz : ⌊a / b⌋ = 0 := by
    rw [Int.floor_eq_zero_iff]
    constructor
    · exact div_nonneg h0 hb.le
    · rw [div_lt_one hb]
      exact hlt
  rw [hz]
  simp

/-- Reduction of the filter predicate for the `is_empty` operator. -/
theorem filterPred_is_empty (c : String) (v : Option String) (r : Row) :
    filterPred ⟨c, "is_empty", v⟩ r = (getCell r c == "") := by
  show (jsToLower (getCell r c) == "") = _
  exact jsToLower_beq_empty _

/-- Reduction of the filter predicate for the `is_not_empty` operator. -/
theorem filterPred_is_not_empty (c : String) (v : Option String) (r : Row) :
    filterPred ⟨c, "is_not_empty", v⟩ r = !(getCell r c == "") := by
  have h : filterPred ⟨c, "is_not_empty", v⟩ r = !(jsToLower (getCell r c) == "") := rfl
  rw [h, jsToLower_beq_empty]

/-- A single-filter plan narrows the rows by exactly that filter. -/
theorem executeFilters_single (f : Filter) (d : CSVData) :
    executeFilters ⟨"filter_and_analyze", some [f], none, none⟩ d =
      d.rows.filter (filterPred f) := rfl

/-- Unrecognized operators make the filter predicate constantly true. -/
theorem filterPred_default (f : Filter)
    (h : f.operator ∉ ["equals", "not_equals", "contains", "is_empty", "is_not_empty"])
    (r : Row) : filterPred f r = true := by
  obtain ⟨c, op, v⟩ := f
  simp only [List.mem_cons, List.not_mem_nil, or_false, not_or] at h
  obtain ⟨h1, h2, h3, h4, h5⟩ := h
  unfold filterPred
  split <;> simp_all

/-- A row bound only to header keys has no cell at a non-header column. -/
theorem lookupCell_none_of_not_header (d : CSVData) (hwf : WfRows d)
    (r : Row) (hr : r ∈ d.rows) (c : String) (hc : c ∉ d.headers) :
    lookupCell r c = none := by
  unfold lookupCell
  cases hfind : r.find? (fun p => p.1 == c) with
  | none => rfl
  | some p =>
    have hmem : p ∈ r := @List.mem_of_find?_eq_some _ (fun p => p.1 == c) p r hfind
    have hkey : (p.1 == c) = true := @List.find?_some _ (fun p => p.1 == c) p r hfind
    rw [beq_iff_eq] at hkey
    exact absurd (hkey ▸ hwf r hr p hmem) hc

/-! ## C2 -/

/-- C2 (corrected claim is refuted here): for the one-row dataset whose
only `c` cell is a single space — a whitespace-only, hence "blank" value —
the `is_empty` filter produces no rows at all, while the set of rows with a
blank-or-whitespace-only `c` value is the whole dataset; so the `is_empty`
result is not "exactly the rows whose value is blank or whitespace-only". -/
theorem is_empty_excludes_whitespace_row :
    (executePlan ⟨"filter_and_analyze", some [⟨"c", "is_empty", none⟩], none, none⟩
        whitespaceData).subset.rows = []
    ∧ whitespaceData.rows.filter (fun r => jsTrim (getCell r "c") == "") =
        whitespaceData.rows
    ∧ whitespaceData.rows ≠ [] := by
  refine ⟨by decide, by decide, by decide⟩

/-- C2 (amended): `is_empty` keeps exactly the rows whose `c` value is the
empty string (missing cells included); whitespace-only values count as
non-empty.  `is_not_empty` yields exactly the complementary rows, and the
two results partition the dataset: no row of one occurs in the other, and
their concatenation is a permutation of the dataset's rows. -/
theorem is_empty_is_not_empty_partition (d : CSVData) (c : String) (v : Option String) :
    (executePlan ⟨"filter_and_analyze", some [⟨c, "is_empty", v⟩], none, none⟩
        d).subset.rows = d.rows.filter (fun r => getCell r c == "")
    ∧ (executePlan ⟨"filter_and_analyze", some [⟨c, "is_not_empty", v⟩], none, none⟩
        d).subset.rows = d.rows.filter (fun r => !(getCell r c == ""))
    ∧ (∀ r ∈ (executePlan ⟨"filter_and_analyze", some [⟨c, "is_empty", v⟩], none, none⟩
          d).subset.rows,
        r ∉ (executePlan ⟨"filter_and_analyze", some [⟨c, "is_not_empty", v⟩], none, none⟩
          d).subset.rows)
    ∧ ((executePlan ⟨"filter_and_analyze", some [⟨c, "is_empty", v⟩], none, none⟩
          d).subset.rows ++
       (executePlan ⟨"filter_and_analyze", some [⟨c, "is_not_empty", v⟩], none, none⟩
          d).subset.rows).Perm d.rows := by
  have he : (executePlan ⟨"filter_and_analyze", some [⟨c, "is_empty", v⟩], none, none⟩
      d).subset.rows = d.rows.filter (fun r => getCell r c == "") := by
    show d.rows.filter (filterPred ⟨c, "is_empty", v⟩) = _
    exact List.filter_congr (fun r _ => filterPred_is_empty c v r)
  have hn : (executePlan ⟨"filter_and_analyze", some [⟨c, "is_not_empty", v⟩], none, none⟩
      d).subset.rows = d.rows.filter (fun r => !(getCell r c == "")) := by
    show d.rows.filter (filterPred ⟨c, "is_not_empty", v⟩) = _
    exact List.filter_congr (fun r _ => filterPred_is_not_empty c v r)
  refine ⟨he, hn, ?_, ?_⟩
  · intro r hr hr'
    rw [he, List.mem_filter] at hr
    rw [hn, List.mem_filter] at hr'
    rw [hr.2] at hr'
    exact absurd hr'.2 (by decide)
  · rw [he, hn]
    exact List.filter_append_perm _ d.rows

/-- C2 witness: the partition instantiated on a two-row dataset holding a
whitespace-only cell and an empty cell. -/
theorem is_empty_is_not_empty_partition_witness :
    (executePlan ⟨"filter_and_analyze", some [⟨"c", "is_empty", none⟩], none, none⟩
        ⟨["c"], [[("c", " ")], [("c", "")]]⟩).subset.rows =
      (⟨["c"], [[("c", " ")], [("c", "")]]⟩ : CSVData).rows.filter
        (fun r => getCell r "c" == "") :=
  (is_empty_is_not_empty_partition ⟨["c"], [[("c", " ")], [("c", "")]]⟩ "c" none).1

/-! ## C3 -/

/-- C3: a plan filter with an operator outside the five recognized ones
passes every row through unchanged (fail-open); being a total function,
the filtering raises no error. -/
theorem unknown_operator_fail_open (f : Filter)
    (h : f.operator ∉ ["equals", "not_equals", "contains", "is_empty", "is_not_empty"])
    (rows : List Row) : applyFilter f rows = rows := by
  unfold applyFilter
  rw [List.filter_eq_self]
  exact fun r _ => filterPred_default f h r

/-- C3 witness: the made-up operator `matches_regex` filters nothing. -/
theorem unknown_operator_fail_open_witness :
    applyFilter ⟨"c", "matches_regex", none⟩ [[("c", "x")], [("c", "")]] =
      [[("c", "x")], [("c", "")]] :=
  unknown_operator_fail_open ⟨"c", "matches_regex", none⟩ (by decide)
    [[("c", "x")], [("c", "")]]

/-! ## C4 -/

/-- C4: a filter naming a column absent from the headers sees the empty
string as every row's value: `is_empty` keeps every row, `is_not_empty`
removes every row, and `equals` against a non-empty value removes every
row; filtering stays total (no structural error). -/
theorem missing_column_filters (d : CSVData) (c : String) (v : Option String)
    (hwf : WfRows d) (hc : c ∉ d.headers) :
    (executePlan ⟨"filter_and_analyze", some [⟨c, "is_empty", v⟩], none, none⟩
        d).subset.rows = d.rows
    ∧ (executePlan ⟨"filter_and_analyze", some [⟨c, "is_not_empty", v⟩], none, none⟩
        d).subset.rows = []
    ∧ (∀ s : String, s ≠ "" →
        (executePlan ⟨"filter_and_analyze", some [⟨c, "equals", some s⟩], none, none⟩
          d).subset.rows = []) := by
  have hcell : ∀ r ∈ d.rows, getCell r c = "" := by
    intro r hr
    unfold getCell
    rw [lookupCell_none_of_not_header d hwf r hr c hc]
    rfl
  refine ⟨?_, ?_, ?_⟩
  · show d.rows.filter (filterPred ⟨c, "is_empty", v⟩) = d.rows
    rw [List.filter_eq_self]
    intro r hr
    rw [filterPred_is_empty, hcell r hr]
    rfl
  · show d.rows.filter (filterPred ⟨c, "is_not_empty", v⟩) = []
    rw [List.filter_eq_nil_iff]
    intro r hr
    rw [filterPred_is_not_empty, hcell r hr]
    decide
  · intro s hs
    show d.rows.filter (filterPred ⟨c, "equals", some s⟩) = []
    rw [List.filter_eq_nil_iff]
    intro r hr
    have h1 : filterPred ⟨c, "equals", some s⟩ r =
        (jsToLower (getCell r c) == jsToLower s) := rfl
    rw [h1, hcell r hr]
    intro habs
    rw [beq_iff_eq] at habs
    apply hs
    obtain ⟨l⟩ := s
    cases l with
    | nil => rfl
    | cons a as => exact List.noConfusion (congrArg String.data habs)

/-- C4 witness: a filter on the absent column `ghost` of a one-row
dataset keeps all rows under `is_empty`, none under `is_not_empty`, and
none under `equals "x"`. -/
theorem missing_column_filters_witness :
    (executePlan ⟨"filter_and_analyze", some [⟨"ghost", "is_empty", none⟩], none, none⟩
        ⟨["a"], [[("a", "1")]]⟩).subset.rows = [[("a", "1")]]
    ∧ (executePlan ⟨"filter_and_analyze", some [⟨"ghost", "is_not_empty", none⟩], none, none⟩
        ⟨["a"], [[("a", "1")]]⟩).subset.rows = []
    ∧ (executePlan ⟨"filter_and_analyze", some [⟨"ghost", "equals", some "x"⟩], none, none⟩
        ⟨["a"], [[("a", "1")]]⟩).subset.rows = [] :=
  ⟨(missing_column_filters ⟨["a"], [[("a", "1")]]⟩ "ghost" none
      (by unfold WfRows; decide) (by decide)).1,
   (missing_column_filters ⟨["a"], [[("a", "1")]]⟩ "ghost" none
      (by unfold WfRows; decide) (by decide)).2.1,
   (missing_column_filters ⟨["a"], [[("a", "1")]]⟩ "ghost" none
      (by unfold WfRows; decide) (by decide)).2.2 "x" (by decide)⟩

/-! ## C9 -/

/-- Sequential filtering only narrows: the folded row list is a sublist. -/
theorem foldl_applyFilter_sublist (fs : List Filter) :
    ∀ rows : List Row, (fs.foldl (fun rows f => applyFilter f rows) rows).Sublist rows := by
  induction fs with
  | nil => intro rows; exact List.Sublist.refl rows
  | cons f fs ih =>
    intro rows
    exact (ih (applyFilter f rows)).trans (List.filter_sublist rows)

/-- C9: for every plan and dataset, the returned subset keeps the input's
headers unchanged and its rows form an order-preserving subsequence
(sublist) of the input's rows; the input dataset itself is a pure value
that execution never mutates (the embedding is purely functional, as is the
source, which copies the row array before filtering). -/
theorem subset_headers_and_sublist (plan : ExecutionPlan) (d : CSVData) :
    (executePlan plan d).subset.headers = d.headers
    ∧ (executePlan plan d).subset.rows.Sublist d.rows := by
  refine ⟨rfl, ?_⟩
  show (executeFilters plan d).Sublist d.rows
  unfold executeFilters
  cases plan.filters with
  | none => exact List.Sublist.refl d.rows
  | some fs => exact foldl_applyFilter_sublist fs d.rows

/-! ## C5 -/

/-- With no filtered rows, every loop iteration writes `0`. -/
theorem metricStep_empty (m : String → Option ℚ) (c : String) :
    metricStep [] m c = mUpdate m c 0 := rfl

/-- Folding the calculation loop over an empty filtered set maps every
requested (or already-zero) key to `0`. -/
theorem foldl_metricStep_empty :
    ∀ (calcs : List String) (m : String → Option ℚ) (c : String),
      c ∈ calcs ∨ m c = some 0 →
      (calcs.foldl (metricStep []) m) c = some 0 := by
  intro calcs
  induction calcs with
  | nil =>
    intro m c h
    rcases h with h | h
    · exact absurd h (List.not_mem_nil c)
    · simpa using h
  | cons x xs ih =>
    intro m c h
    rw [List.foldl_cons]
    apply ih
    rcases h with h | h
    · rcases List.mem_cons.mp h with rfl | hx
      · right
        rw [metricStep_empty]
        show (if c = c then some (0 : ℚ) else m c) = some 0
        rw [if_pos rfl]
      · left
        exact hx
    · right
      rw [metricStep_empty]
      show (if c = x then some (0 : ℚ) else m c) = some 0
      by_cases hcx : c = x
      · rw [if_pos hcx]
      · rw [if_neg hcx]
        exact h

/-- C5: whenever the filtered row set is empty, every calculation requested
in `plan.calculations` is present in the metrics with value `0` (never
absent, and — the metrics being exact rationals — never `NaN`). -/
theorem empty_result_metrics_zero (plan : ExecutionPlan) (d : CSVData)
    (calcs : List String) (hcalc : plan.calculations = some calcs)
    (hrows : executeFilters plan d = []) :
    ∀ c ∈ calcs, (executePlan plan d).metrics c = some 0 := by
  intro c hc
  have h1 : (executePlan plan d).metrics = computeMetrics calcs (executeFilters plan d) := by
    simp [executePlan, hcalc]
  rw [h1, hrows]
  exact foldl_metricStep_empty calcs (fun _ => none) c (Or.inl hc)

/-- C5 witness: a filter that keeps no row of a one-row dataset makes all
three requested calculations `0`. -/
theorem empty_result_metrics_zero_witness :
    (executePlan ⟨"filter_and_analyze", some [⟨"c", "is_not_empty", none⟩],
        some ["count", "mismatch_rate", "missing_po_rate"], none⟩
      ⟨["c"], [[("c", "")]]⟩).metrics "count" = some 0
    ∧ (executePlan ⟨"filter_and_analyze", some [⟨"c", "is_not_empty", none⟩],
        some ["count", "mismatch_rate", "missing_po_rate"], none⟩
      ⟨["c"], [[("c", "")]]⟩).metrics "mismatch_rate" = some 0
    ∧ (executePlan ⟨"filter_and_analyze", some [⟨"c", "is_not_empty", none⟩],
        some ["count", "mismatch_rate", "missing_po_rate"], none⟩
      ⟨["c"], [[("c", "")]]⟩).metrics "missing_po_rate" = some 0 :=
  ⟨empty_result_metrics_zero _ ⟨["c"], [[("c", "")]]⟩ _ rfl (by decide) "count" (by decide),
   empty_result_metrics_zero _ ⟨["c"], [[("c", "")]]⟩ _ rfl (by decide) "mismatch_rate"
     (by decide),
   empty_result_metrics_zero _ ⟨["c"], [[("c", "")]]⟩ _ rfl (by decide) "missing_po_rate"
     (by decide)⟩

/-! ## C6 -/

/-- Effect of one loop iteration on the `mismatch_rate` key, over a
non-empty filtered set. -/
theorem metricStep_at_mismatch (rows : List Row) (hrows : rows.length ≠ 0)
    (m : String → Option ℚ) (c : String) :
    metricStep rows m c "mismatch_rate" =
      if c = "mismatch_rate" then
        some (((mismatchCount rows : ℚ) / (rows.length : ℚ)) * 100)
      else m "mismatch_rate" := by
  unfold metricStep
  rw [if_neg hrows]
  split <;> simp_all [mUpdate]

/-- Folding the calculation loop over a non-empty filtered set: the
`mismatch_rate` key holds the mismatch percentage exactly when the
calculation was requested. -/
theorem foldl_metricStep_mismatch (rows : List Row) (hrows : rows.length ≠ 0) :
    ∀ (calcs : List String) (m : String → Option ℚ),
      (calcs.foldl (metricStep rows) m) "mismatch_rate" =
        if "mismatch_rate" ∈ calcs then
          some (((mismatchCount rows : ℚ) / (rows.length : ℚ)) * 100)
        else m "mismatch_rate" := by
  intro calcs
  induction calcs with
  | nil => intro m; simp
  | cons x xs ih =>
    intro m
    rw [List.foldl_cons, ih, metricStep_at_mismatch rows hrows]
    by_cases hx : x = "mismatch_rate" <;> by_cases hmem : "mismatch_rate" ∈ xs <;>
      simp [hx, hmem, List.mem_cons, eq_comm]

/-- C6: the `mismatch_rate` metric is 100 times the number of filtered rows
whose `tracking_no` differs from their `vend_track_no` with `vend_track_no`
present and non-empty, divided by the number of filtered rows; on the
concrete three-row scenario `[(A,A),(B,C),(D,"")]` with no filters there is
exactly one mismatch, the metric is `100/3`, and its two-decimal rendering
is `33.33%` (the empty-vendor row counts in the denominator only). -/
theorem mismatch_rate_formula :
    (∀ (plan : ExecutionPlan) (d : CSVData) (calcs : List String),
      plan.calculations = some calcs → "mismatch_rate" ∈ calcs →
      executeFilters plan d ≠ [] →
      (executePlan plan d).metrics "mismatch_rate" =
        some (100 * (mismatchCount (executeFilters plan d) : ℚ) /
          ((executeFilters plan d).length : ℚ)))
    ∧ mismatchCount mismatchData.rows = 1
    ∧ (executePlan mismatchPlan mismatchData).metrics "mismatch_rate" = some (100 / 3)
    ∧ toFixed2 (100 / 3) ++ "%" = "33.33%" := by
  have hgen : ∀ (plan : ExecutionPlan) (d : CSVData) (calcs : List String),
      plan.calculations = some calcs → "mismatch_rate" ∈ calcs →
      executeFilters plan d ≠ [] →
      (executePlan plan d).metrics "mismatch_rate" =
        some (100 * (mismatchCount (executeFilters plan d) : ℚ) /
          ((executeFilters plan d).length : ℚ)) := by
    intro plan d calcs hcalc hmem hne
    have hlen : (executeFilters plan d).length ≠ 0 := by
      intro h0
      exact hne (List.length_eq_zero.mp h0)
    have h1 : (executePlan plan d).metrics = computeMetrics calcs (executeFilters plan d) := by
      simp [executePlan, hcalc]
    rw [h1]
    show (calcs.foldl (metricStep (executeFilters plan d)) (fun _ => none)) "mismatch_rate" = _
    rw [foldl_metricStep_mismatch _ hlen calcs _, if_pos hmem]
    congr 1
    ring
  refine ⟨hgen, by decide, ?_, ?_⟩
  · have h := hgen mismatchPlan mismatchData ["mismatch_rate"] rfl (by decide) (by decide)
    rw [h]
    congr 1
    rw [show executeFilters mismatchPlan mismatchData = mismatchData.rows from rfl]
    rw [show mismatchCount mismatchData.rows = 1 from by decide]
    rw [show mismatchData.rows.length = 3 from rfl]
    push_cast
    norm_num
  · have hf : ⌊(100 / 3 : ℚ) * 100 + 1/2⌋ = (3333 : ℤ) := by
      rw [show ((100 / 3 : ℚ) * 100 + 1/2) = ((20003 : ℤ) : ℚ) / ((6 : ℕ) : ℚ) by
        push_cast
        norm_num]
      rw [Rat.floor_intCast_div_natCast]
      decide
    rw [toFixed2_eval (100 / 3) 3333 hf]
    decide

/-- C6 witness: the general formula applied to the concrete scenario. -/
theorem mismatch_rate_formula_witness :
    (executePlan mismatchPlan mismatchData).metrics "mismatch_rate" =
      some (100 * (mismatchCount (executeFilters mismatchPlan mismatchData) : ℚ) /
        ((executeFilters mismatchPlan mismatchData).length : ℚ)) :=
  mismatch_rate_formula.1 mismatchPlan mismatchData ["mismatch_rate"] rfl (by decide)
    (by decide)

/-! ## C1 -/

/-- First-match semantics of the recognizer scan: if pattern `i` matches
and no earlier pattern does, the scan dispatches pattern `i`'s handler on
its captures. -/
theorem tryPatterns_first_match :
    ∀ (l : List Pattern) (cp : String) (d : CSVData) (i : ℕ) (hi : i < l.length)
      (caps : List String),
      rxMatch (l.get ⟨i, hi⟩).regex cp = some caps →
      (∀ j (hj : j < i), rxMatch (l.get ⟨j, Nat.lt_trans hj hi⟩).regex cp = none) →
      tryPatterns cp d l = some (applyHandler (l.get ⟨i, hi⟩).handler caps d) := by
  intro l
  induction l with
  | nil =>
    intro cp d i hi
    exact absurd hi (Nat.not_lt_zero i)
  | cons p ps ih =>
    intro cp d i hi caps hmatch hnone
    cases i with
    | zero =>
      have hm0 : rxMatch p.regex cp = some caps := hmatch
      show (match rxMatch p.regex cp with
            | some args => some (applyHandler p.handler args d)
            | none => tryPatterns cp d ps) = _
      rw [hm0]
      rfl
    | succ i' =>
      have h0 : rxMatch p.regex cp = none := hnone 0 (Nat.succ_pos i')
      show (match rxMatch p.regex cp with
            | some args => some (applyHandler p.handler args d)
            | none => tryPatterns cp d ps) = _
      rw [h0]
      exact ih cp d i' (Nat.lt_of_succ_lt_succ hi) caps hmatch
        (fun j hj => hnone (j + 1) (Nat.succ_lt_succ hj))

/-- C1: `tryLocalAnalysis` scans the fixed recognizer list in order and
returns the blocks of the first matching pattern's handler — patterns after
the first match are never consulted (the result is fully determined by the
first match) — and the list places the two compound containment-percentage
recognizers before the two unique-count recognizers and the two
distribution recognizers. -/
theorem local_analysis_first_match :
    (∀ (prompt : String) (d : CSVData) (i : ℕ) (hi : i < PATTERNS.length)
       (caps : List String),
       rxMatch (PATTERNS.get ⟨i, hi⟩).regex (cleanPrompt prompt) = some caps →
       (∀ j (hj : j < i),
         rxMatch (PATTERNS.get ⟨j, Nat.lt_trans hj hi⟩).regex (cleanPrompt prompt) = none) →
       tryLocalAnalysis prompt d = some (applyHandler (PATTERNS.get ⟨i, hi⟩).handler caps d))
    ∧ PATTERNS.map Pattern.handler =
        [.containmentPercentage, .containmentPercentage, .uniqueCount, .uniqueCount,
         .distribution, .distribution] := by
  refine ⟨?_, rfl⟩
  intro prompt d i hi caps hmatch hnone
  exact tryPatterns_first_match PATTERNS (cleanPrompt prompt) d i hi caps hmatch hnone

/-- C1 witness: the question `count unique carrier` is matched by the first
unique-count recognizer (index 2) while the two containment recognizers
reject it, so its handler answers with the dataset's unique carrier count. -/
theorem local_analysis_first_match_witness :
    tryLocalAnalysis "count unique carrier" ⟨["carrier"], []⟩ =
      some (applyHandler HandlerTag.uniqueCount ["carrier"] ⟨["carrier"], []⟩) :=
  local_analysis_first_match.1 "count unique carrier" ⟨["carrier"], []⟩ 2 (by decide)
    ["carrier"] (by decide)
    (fun j hj => by
      rcases j with _ | _ | j
      · exact (by decide :
          rxMatch (PATTERNS.get ⟨0, Nat.succ_pos 5⟩).regex
            (cleanPrompt "count unique carrier") = none)
      · exact (by decide :
          rxMatch (PATTERNS.get ⟨1, Nat.succ_lt_succ (Nat.succ_pos 4)⟩).regex
            (cleanPrompt "count unique carrier") = none)
      · exact absurd hj (by omega))

/-! ## C7 -/

/-- Missing-column behaviour of the unique-count handler. -/
theorem handleUniqueCount_missing (col : String) (d : CSVData)
    (h : cleanCol col ∉ d.headers) :
    handleUniqueCount col d = [.markdown (columnNotFoundMsg (cleanCol col))] := by
  unfold handleUniqueCount
  rw [if_pos h]

/-- Missing-column behaviour of the distribution handler. -/
theorem handleDistribution_missing (col : String) (d : CSVData)
    (h : cleanCol col ∉ d.headers) :
    handleDistribution col d = [.markdown (columnNotFoundMsg (cleanCol col))] := by
  unfold handleDistribution
  rw [if_pos h]

/-- Missing-column behaviour of the containment handler. -/
theorem handleContainmentPercentage_missing (col1 col2 : String) (d : CSVData)
    (h : cleanCol col1 ∉ d.headers ∨ cleanCol col2 ∉ d.headers) :
    handleContainmentPercentage col1 col2 d =
      [.markdown (columnsNotFoundMsg
        ((if cleanCol col1 ∉ d.headers then [cleanCol col1] else []) ++
         (if cleanCol col2 ∉ d.headers then [cleanCol col2] else [])))] := by
  unfold handleContainmentPercentage
  rw [if_pos h]

/-- C7: whenever the column argument captured for a handler is, after
sanitizing, not among the dataset's headers, the handler returns exactly
one markdown block naming the missing column(s); the handlers are total
functions, so no exception is possible.  The last conjunct is the concrete
scenario: `unique count of carrier` is captured by the second unique-count
recognizer with argument `count`, which is not a header, so a single
markdown block reports that column. -/
theorem missing_column_error_blocks :
    (∀ (col : String) (d : CSVData), cleanCol col ∉ d.headers →
      handleUniqueCount col d = [.markdown (columnNotFoundMsg (cleanCol col))])
    ∧ (∀ (col : String) (d : CSVData), cleanCol col ∉ d.headers →
      handleDistribution col d = [.markdown (columnNotFoundMsg (cleanCol col))])
    ∧ (∀ (col1 col2 : String) (d : CSVData),
        cleanCol col1 ∉ d.headers ∨ cleanCol col2 ∉ d.headers →
        handleContainmentPercentage col1 col2 d =
          [.markdown (columnsNotFoundMsg
            ((if cleanCol col1 ∉ d.headers then [cleanCol col1] else []) ++
             (if cleanCol col2 ∉ d.headers then [cleanCol col2] else [])))])
    ∧ tryLocalAnalysis "unique count of carrier" ⟨["shipment"], []⟩ =
        some [.markdown (columnNotFoundMsg "count")] :=
  ⟨handleUniqueCount_missing, handleDistribution_missing,
   handleContainmentPercentage_missing, by decide⟩

/-- C7 witness: every missing-column branch instantiated concretely —
`carrier` against headers `[shipment]` for the two single-column handlers,
and a containment question with both columns missing. -/
theorem missing_column_error_blocks_witness :
    handleUniqueCount "carrier" ⟨["shipment"], []⟩ =
      [.markdown (columnNotFoundMsg "carrier")]
    ∧ handleDistribution "carrier" ⟨["shipment"], []⟩ =
      [.markdown (columnNotFoundMsg "carrier")]
    ∧ handleContainmentPercentage "a" "b" ⟨["shipment"], []⟩ =
      [.markdown (columnsNotFoundMsg ["a", "b"])] := by
  refine ⟨?_, ?_, ?_⟩
  · exact missing_column_error_blocks.1 "carrier" ⟨["shipment"], []⟩ (by decide)
  · exact missing_column_error_blocks.2.1 "carrier" ⟨["shipment"], []⟩ (by decide)
  · have h := missing_column_error_blocks.2.2.1 "a" "b" ⟨["shipment"], []⟩
      (Or.inl (by decide))
    rw [h]
    rw [if_pos (by decide : cleanCol "a" ∉ (⟨["shipment"], []⟩ : CSVData).headers)]
    rw [if_pos (by decide : cleanCol "b" ∉ (⟨["shipment"], []⟩ : CSVData).headers)]
    rfl

/-! ## C8 -/

/-- C8: on the dataset with headers `[carrier]` and rows `UPS, UPS, FEDEX`,
the distribution handler produces exactly a markdown block, a pie chart
(two distinct values, so at most five) with labels `UPS, FEDEX` and counts
`2, 1`, and a table whose rows are `UPS | 2 | 66.67%` and
`FEDEX | 1 | 33.33%` — frequencies sorted descending with percentages of
the three rows rendered to two decimals. -/
theorem distribution_scenario :
    handleDistribution "carrier" carrierData =
      [.markdown "Here is the distribution for the **carrier** column.",
       .chart ⟨"pie", ["UPS", "FEDEX"], "Distribution of carrier", [2, 1], [0, 180]⟩,
       .table ⟨["carrier", "Count", "Percentage"],
               [[.str "UPS", .num 2, .str "66.67%"],
                [.str "FEDEX", .num 1, .str "33.33%"]]⟩] := by
  have h67 : toFixed2 (((2 : ℕ) : ℚ) / ((3 : ℕ) : ℚ) * 100) = "66.67" := by
    have hf : ⌊(((2 : ℕ) : ℚ) / ((3 : ℕ) : ℚ) * 100) * 100 + 1/2⌋ = (6667 : ℤ) := by
      rw [show ((((2 : ℕ) : ℚ) / ((3 : ℕ) : ℚ) * 100) * 100 + 1/2) =
          ((40003 : ℤ) : ℚ) / ((6 : ℕ) : ℚ) by push_cast; norm_num]
      rw [Rat.floor_intCast_div_natCast]
      decide
    rw [toFixed2_eval _ 6667 hf]
    decide
  have h33 : toFixed2 (((1 : ℕ) : ℚ) / ((3 : ℕ) : ℚ) * 100) = "33.33" := by
    have hf : ⌊(((1 : ℕ) : ℚ) / ((3 : ℕ) : ℚ) * 100) * 100 + 1/2⌋ = (3333 : ℤ) := by
      rw [show ((((1 : ℕ) : ℚ) / ((3 : ℕ) : ℚ) * 100) * 100 + 1/2) =
          ((20003 : ℤ) : ℚ) / ((6 : ℕ) : ℚ) by push_cast; norm_num]
      rw [Rat.floor_intCast_div_natCast]
      decide
    rw [toFixed2_eval _ 3333 hf]
    decide
  have hm0 : jsMod (((0 : ℕ) : ℚ) * 360 / ((2 : ℕ) : ℚ)) 360 = 0 := by
    rw [show (((0 : ℕ) : ℚ) * 360 / ((2 : ℕ) : ℚ)) = 0 by push_cast; norm_num]
    exact jsMod_of_lt 0 360 le_rfl (by norm_num) (by norm_num)
  have hm1 : jsMod (((1 : ℕ) : ℚ) * 360 / ((2 : ℕ) : ℚ)) 360 = 180 := by
    rw [show (((1 : ℕ) : ℚ) * 360 / ((2 : ℕ) : ℚ)) = 180 by push_cast; norm_num]
    exact jsMod_of_lt 180 360 (by norm_num) (by norm_num) (by norm_num)
  unfold handleDistribution
  simp only [show cleanCol "carrier" = "carrier" from by decide]
  rw [if_neg (by decide : ¬("carrier" ∉ carrierData.headers))]
  simp only [show sortDescByCount (countValues "carrier" carrierData.rows) =
    [("UPS", 2), ("FEDEX", 1)] from by decide]
  simp only [show carrierData.rows.length = 3 from rfl]
  simp only [List.map_cons, List.map_nil, List.length_cons, List.length_nil]
  simp only [show (0 + 1 + 1 : ℕ) = 2 from rfl]
  simp only [show (2 ⊓ 20 : ℕ) = 2 from rfl]
  simp only [show List.range 2 = [0, 1] from rfl]
  rw [if_neg (by decide : ¬((2 : ℕ) > 5))]
  simp only [List.map_cons, List.map_nil]
  rw [hm0, hm1, h67, h33]
  norm_num
  refine ⟨by decide, by decide, by decide, by decide⟩

/-! ## C10: capture invariant of the regex engine -/

/-- Characters of the rest returned by a literal match come from the input. -/
theorem litRest_mem (l : List Char) :
    ∀ (s rest : List Char), litRest l s = some rest → ∀ c ∈ rest, c ∈ s := by
  induction l with
  | nil =>
    intro s rest h c hc
    injection h with h
    subst h
    exact hc
  | cons a as ih =>
    intro s rest h c hc
    cases s with
    | nil => exact absurd h (by simp [litRest])
    | cons b bs =>
      unfold litRest at h
      split at h
      · exact List.mem_cons_of_mem b (ih bs rest h c hc)
      · exact absurd h (by simp)

/-- Character-predicate invariant of the greedy `+` continuation: if every
input character and every accumulated capture satisfies `Q` and the
continuation preserves the invariant, every result capture satisfies `Q`. -/
theorem plusRest_allQ (Q : Char → Prop) (t : CharClass) :
    ∀ (s : List Char) (caps : List String) (k : MatchK),
      (∀ c ∈ s, Q c) → (∀ a ∈ caps, ∀ c ∈ a.toList, Q c) →
      (∀ s2 caps2 res, (∀ c ∈ s2, Q c) → (∀ a ∈ caps2, ∀ c ∈ a.toList, Q c) →
        k s2 caps2 = some res → ∀ a ∈ res, ∀ c ∈ a.toList, Q c) →
      ∀ res, plusRest t s caps k = some res → ∀ a ∈ res, ∀ c ∈ a.toList, Q c := by
  intro s
  induction s with
  | nil =>
    intro caps k hs hcaps hk res hrun
    exact hk [] caps res (by simp) hcaps hrun
  | cons c cs ih =>
    intro caps k hs hcaps hk res hrun
    have hcs : ∀ x ∈ cs, Q x := fun x hx => hs x (List.mem_cons_of_mem c hx)
    unfold plusRest at hrun
    by_cases ht : CharClass.test t c
    · rw [if_pos ht] at hrun
      cases h1 : plusRest t cs caps k with
      | some v =>
        rw [h1] at hrun
        simp only [Option.orElse] at hrun
        injection hrun with hrun
        subst hrun
        exact ih caps k hcs hcaps hk v h1
      | none =>
        rw [h1] at hrun
        simp only [Option.orElse] at hrun
        exact hk (c :: cs) caps res hs hcaps hrun
    · rw [if_neg ht] at hrun
      exact hk (c :: cs) caps res hs hcaps hrun

/-- Character-predicate invariant of the backtracking matcher: captures are
cut from the input, so if every input character satisfies `Q` (and the
continuation preserves the invariant) then so does every capture. -/
theorem runM_allQ (Q : Char → Prop) :
    ∀ (r : Rx) (s : List Char) (caps : List String) (k : MatchK),
      (∀ c ∈ s, Q c) → (∀ a ∈ caps, ∀ c ∈ a.toList, Q c) →
      (∀ s2 caps2 res, (∀ c ∈ s2, Q c) → (∀ a ∈ caps2, ∀ c ∈ a.toList, Q c) →
        k s2 caps2 = some res → ∀ a ∈ res, ∀ c ∈ a.toList, Q c) →
      ∀ res, Rx.runM r s caps k = some res → ∀ a ∈ res, ∀ c ∈ a.toList, Q c := by
  intro r
  induction r with
  | eps =>
    intro s caps k hs hcaps hk res hrun
    exact hk s caps res hs hcaps hrun
  | lit l =>
    intro s caps k hs hcaps hk res hrun
    unfold Rx.runM at hrun
    cases hl : litRest l s with
    | none =>
      rw [hl] at hrun
      exact absurd hrun (by simp)
    | some rest =>
      rw [hl] at hrun
      exact hk rest caps res (fun c hc => hs c (litRest_mem l s rest hl c hc)) hcaps hrun
  | cls t =>
    intro s caps k hs hcaps hk res hrun
    cases s with
    | nil => exact absurd hrun (by simp [Rx.runM])
    | cons c cs =>
      have hrun' : (if CharClass.test t c = true then k cs caps else none) = some res := hrun
      by_cases ht : CharClass.test t c = true
      · rw [if_pos ht] at hrun'
        exact hk cs caps res (fun x hx => hs x (List.mem_cons_of_mem c hx)) hcaps hrun'
      · rw [if_neg ht] at hrun'
        exact absurd hrun' (by simp)
  | seq a b iha ihb =>
    intro s caps k hs hcaps hk res hrun
    exact iha s caps _ hs hcaps
      (fun s2 caps2 res2 hs2 hcaps2 hb => ihb s2 caps2 k hs2 hcaps2 hk res2 hb) res hrun
  | alt a b iha ihb =>
    intro s caps k hs hcaps hk res hrun
    unfold Rx.runM at hrun
    cases h1 : Rx.runM a s caps k with
    | some v =>
      rw [h1] at hrun
      simp only [Option.orElse] at hrun
      injection hrun with hrun
      subst hrun
      exact iha s caps k hs hcaps hk v h1
    | none =>
      rw [h1] at hrun
      simp only [Option.orElse] at hrun
      exact ihb s caps k hs hcaps hk res hrun
  | opt a iha =>
    intro s caps k hs hcaps hk res hrun
    unfold Rx.runM at hrun
    cases h1 : Rx.runM a s caps k with
    | some v =>
      rw [h1] at hrun
      simp only [Option.orElse] at hrun
      injection hrun with hrun
      subst hrun
      exact iha s caps k hs hcaps hk v h1
    | none =>
      rw [h1] at hrun
      simp only [Option.orElse] at hrun
      exact hk s caps res hs hcaps hrun
  | plus t =>
    intro s caps k hs hcaps hk res hrun
    cases s with
    | nil => exact absurd hrun (by simp [Rx.runM])
    | cons c cs =>
      have hrun' : (if CharClass.test t c = true then plusRest t cs caps k else none) =
          some res := hrun
      by_cases ht : CharClass.test t c = true
      · rw [if_pos ht] at hrun'
        exact plusRest_allQ Q t cs caps k
          (fun x hx => hs x (List.mem_cons_of_mem c hx)) hcaps hk res hrun'
      · rw [if_neg ht] at hrun'
        exact absurd hrun' (by simp)
  | grp a iha =>
    intro s caps k hs hcaps hk res hrun
    unfold Rx.runM at hrun
    refine iha s caps _ hs hcaps ?_ res hrun
    intro s2 caps2 res2 hs2 hcaps2 hkapp
    refine hk s2 (caps2 ++ [String.mk (s.take (s.length - s2.length))]) res2 hs2 ?_ hkapp
    intro x hx
    rcases List.mem_append.mp hx with hx | hx
    · exact hcaps2 x hx
    · rw [List.mem_singleton] at hx
      subst hx
      intro ch hch
      have hch' : ch ∈ s.take (s.length - s2.length) := hch
      exact hs ch (List.take_subset _ s hch')

/-- Character-predicate invariant of the unanchored search. -/
theorem searchRx_allQ (Q : Char → Prop) (r : Rx) :
    ∀ (s : List Char), (∀ c ∈ s, Q c) →
      ∀ res, searchRx r s = some res → ∀ a ∈ res, ∀ c ∈ a.toList, Q c := by
  intro s
  induction s with
  | nil =>
    intro hs res hrun
    unfold searchRx at hrun
    refine runM_allQ Q r [] [] _ hs (by simp) ?_ res hrun
    intro s2 caps2 res2 _ h2 heq
    injection heq with heq
    subst heq
    exact h2
  | cons c cs ih =>
    intro hs res hrun
    unfold searchRx at hrun
    cases h1 : Rx.runM r (c :: cs) [] (fun _ caps => some caps) with
    | some v =>
      rw [h1] at hrun
      simp only [Option.orElse] at hrun
      injection hrun with hrun
      subst hrun
      refine runM_allQ Q r (c :: cs) [] _ hs (by simp) ?_ v h1
      intro s2 caps2 res2 _ h2 heq
      injection heq with heq
      subst heq
      exact h2
    | none =>
      rw [h1] at hrun
      simp only [Option.orElse] at hrun
      exact ih (fun x hx => hs x (List.mem_cons_of_mem c hx)) res hrun

/-- Captures taken from the cleaned (lowercased, trimmed) question contain
no ASCII uppercase letter. -/
theorem rxMatch_cleanPrompt_lower (p : String) (r : Rx) (caps : List String)
    (h : rxMatch r (cleanPrompt p) = some caps) :
    ∀ a ∈ caps, hasUpperChar a = false := by
  intro a ha
  have hall : ∀ c ∈ a.toList, isUpperA c = false :=
    searchRx_allQ (fun ch => isUpperA ch = false) r (cleanPrompt p).toList
      (cleanPrompt_no_upper p) caps h a ha
  unfold hasUpperChar
  rw [List.any_eq_false]
  intro x hx
  rw [hall x hx]
  exact Bool.false_ne_true

/-- A present column makes the unique-count handler return a card, never a
single markdown block. -/
theorem handleUniqueCount_present (col : String) (d : CSVData)
    (h : cleanCol col ∈ d.headers) :
    ∀ s, handleUniqueCount col d ≠ [.markdown s] := by
  intro s heq
  unfold handleUniqueCount at heq
  rw [if_neg (not_not_intro h)] at heq
  simp at heq

/-- A present column makes the distribution handler return three blocks,
never a single markdown block. -/
theorem handleDistribution_present (col : String) (d : CSVData)
    (h : cleanCol col ∈ d.headers) :
    ∀ s, handleDistribution col d ≠ [.markdown s] := by
  intro s heq
  unfold handleDistribution at heq
  rw [if_neg (not_not_intro h)] at heq
  simp at heq

/-- C10 (corrected claim is refuted here): the dataset holds both the
capitalized header `Carrier` (which contains an uppercase letter) and its
lowercase twin `carrier`; the question `show the distribution of Carrier`
names the capitalized column and matches the distribution recognizer, yet
the result is the three-block computed distribution (its first block the
distribution markdown), not the single column-not-found markdown block the
claim predicts for every matching question on that header. -/
theorem lowercase_capture_counterexample :
    "Carrier" ∈ twinHeaderData.headers
    ∧ hasUpperChar "Carrier" = true
    ∧ ((tryLocalAnalysis "show the distribution of Carrier" twinHeaderData).getD
        []).length = 3
    ∧ ((tryLocalAnalysis "show the distribution of Carrier" twinHeaderData).getD
        [])[0]? = some (.markdown "Here is the distribution for the **carrier** column.") :=
  ⟨by decide, by decide, by decide, by decide⟩

/-- C10 (amended): `tryLocalAnalysis` lowercases the question before
matching, so every captured column argument is free of ASCII uppercase
letters, while the handlers test header membership case-sensitively; a
handler therefore reports the column-not-found markdown block exactly when
the sanitized lowercase argument is not itself a header.  In particular a
question naming a capitalized column whose lowercase form is absent (e.g.
`Carrier` with headers `[Carrier]`) gets the error block even though the
column exists up to case — but if the lowercase twin is also a header, the
computed result for the twin is returned instead. -/
theorem lowercase_capture_mismatch :
    (∀ (prompt : String) (r : Rx) (caps : List String),
        rxMatch r (cleanPrompt prompt) = some caps →
        ∀ a ∈ caps, hasUpperChar a = false)
    ∧ (∀ (col : String) (d : CSVData), cleanCol col ∉ d.headers →
        handleUniqueCount col d = [.markdown (columnNotFoundMsg (cleanCol col))]
        ∧ handleDistribution col d = [.markdown (columnNotFoundMsg (cleanCol col))])
    ∧ (∀ (col : String) (d : CSVData), cleanCol col ∈ d.headers →
        (∀ s, handleUniqueCount col d ≠ [.markdown s])
        ∧ (∀ s, handleDistribution col d ≠ [.markdown s]))
    ∧ tryLocalAnalysis "show the distribution of Carrier" upperHeaderData =
        some [.markdown (columnNotFoundMsg "carrier")] :=
  ⟨rxMatch_cleanPrompt_lower,
   fun col d h => ⟨handleUniqueCount_missing col d h, handleDistribution_missing col d h⟩,
   fun col d h => ⟨handleUniqueCount_present col d h, handleDistribution_present col d h⟩,
   by decide⟩

/-- C10 witness: the capture of `count unique carrier` is uppercase-free;
the handlers report the missing column on the uppercase-only dataset and
answer normally on its twin-header variant. -/
theorem lowercase_capture_mismatch_witness :
    hasUpperChar "carrier" = false
    ∧ handleUniqueCount "carrier" upperHeaderData =
        [.markdown (columnNotFoundMsg "carrier")]
    ∧ handleUniqueCount "carrier" twinHeaderData ≠ [.markdown "x"] :=
  ⟨lowercase_capture_mismatch.1 "count unique carrier" pattern3 ["carrier"] (by decide)
      "carrier" (by decide),
   (lowercase_capture_mismatch.2.1 "carrier" upperHeaderData (by decide)).1,
   (lowercase_capture_mismatch.2.2.1 "carrier" twinHeaderData (by decide)).1 "x"⟩

end SCAI
